import Mathlib

/-!
# Verification of the ATS detection–aggregation–gating core

Shallow embedding of the core pipeline of the ATS repository:
the order-flow / liquidity / volume-price detectors, the signal
aggregator, and the cooldown / market-regime / slippage risk modules.

Conventions of the embedding:
* Python `float` values are modelled as `ℚ` wherever the source only uses
  field arithmetic and comparisons; `ℝ` (with `Real.sqrt`, `Real.log`) is
  used where the source genuinely takes square roots or logarithms
  (standard deviation, Pearson correlation).
* `datetime` timestamps are modelled as `ℚ` (seconds); `datetime.utcnow()`
  becomes an explicit `now : ℚ` argument threaded through each operation.
* Python `dict`s keyed by symbol are modelled as association lists
  `List (String × α)` with unique keys maintained by `updateKey`/`eraseKey`.
* Logging and the purely informational statistics counters
  (`self.stats`, `signal_history` of the detectors) are omitted: no claim
  mentions them and they feed back into no computation.
-/

set_option autoImplicit false

namespace ATS

universe u

/-- First value bound to `key`, mirroring Python `d[k]` / `k in d`. -/
def lookupKey {α : Type u} : List (String × α) → String → Option α
  | [], _ => none
  | (k, v) :: rest, key => if k = key then some v else lookupKey rest key

/-- `d[k] = v`: replace the binding of `key` if present, else append it. -/
def updateKey {α : Type u} : List (String × α) → String → α → List (String × α)
  | [], key, v => [(key, v)]
  | (k, w) :: rest, key, v =>
      if k = key then (k, v) :: rest else (k, w) :: updateKey rest key v

/-- `del d[k]`: remove every binding of `key` (a Python dict has one). -/
def eraseKey {α : Type u} (l : List (String × α)) (key : String) : List (String × α) :=
  l.filter (fun p => p.1 ≠ key)

/-- Python `xs[-n:]`. -/
def takeLast {α : Type u} (n : ℕ) (l : List α) : List α :=
  l.drop (l.length - n)

/-- Consecutive pairs of a list (row `i-1`, row `i`), used for the
`DataFrame.diff()`-style column computations. -/
def adjacentPairs {α : Type u} : List α → List (α × α)
  | a :: b :: rest => (a, b) :: adjacentPairs (b :: rest)
  | _ => []

/-! ## Slippage analyzer (`src/risk/slippage.py`) -/

namespace Slippage

/-- `self.max_slippage_threshold` (2%). -/
def maxSlippageThreshold : ℚ := 1/50

/-- `self.min_profit_after_slippage` (0.1%). -/
def minProfitAfterSlippage : ℚ := 1/1000

/-- `self.transaction_fee_rate` (0.1%). -/
def transactionFeeRate : ℚ := 1/1000

/-- `SlippageAnalyzer.should_cancel_signal`, lines 203–236: veto when the
slippage exceeds the maximum threshold or the profit net of slippage plus
fee falls below the minimum. -/
def shouldCancelSignal (estimatedSlippage predictedProfit : ℚ) : Bool :=
  if maxSlippageThreshold < estimatedSlippage then true
  else if predictedProfit - (estimatedSlippage + transactionFeeRate)
      < minProfitAfterSlippage then true
  else false

end Slippage

/-- Evaluable model of Python `str.lower()` (ASCII data, as the `side`
fields are). -/
def toLowerStr (s : String) : String := String.mk (s.data.map Char.toLower)

/-! ## Order-flow imbalance detector (`src/algorithms/order_flow.py`) -/

namespace OrderFlow

/-- A trade record (`side`, `amount`, `price`, `timestamp`), §3 `TradeEvent`. -/
structure Trade where
  side : String
  amount : ℚ
  price : ℚ
  timestamp : ℚ
deriving DecidableEq

/-- `OrderFlowAnalyzer` mutable state: `trade_windows` and
`signal_cooldowns` (cooldown expiry per symbol). -/
structure State where
  tradeWindows : List (String × List Trade)
  signalCooldowns : List (String × ℚ)
deriving DecidableEq

/-- `window_seconds` default (30). -/
def windowSeconds : ℚ := 30

/-- `self.imbalance_threshold` (0.6). -/
def imbalanceThreshold : ℚ := 3/5

/-- `self.min_volume_threshold` (1000). -/
def minVolumeThreshold : ℚ := 1000

/-- `self.cooldown_period` (60 s). -/
def cooldownPeriod : ℚ := 60

/-- Per-trade linear time-decay weight `max(0.1, 1 - age/window)`
(lines 114–115). -/
def decayFactor (now ts : ℚ) : ℚ :=
  max (1/10) (1 - (now - ts) / windowSeconds)

/-- One iteration of the buy/sell volume accumulation loop of
`calculate_imbalance` (lines 109–122); the pair is
`(buy_volume, sell_volume)`. -/
def volumeStep (now : ℚ) (acc : ℚ × ℚ) (t : Trade) : ℚ × ℚ :=
  let weighted := t.amount * decayFactor now t.timestamp
  if toLowerStr t.side = "buy" then (acc.1 + weighted, acc.2)
  else if toLowerStr t.side = "sell" then (acc.1, acc.2 + weighted)
  else acc

/-- `OrderFlowAnalyzer.calculate_imbalance`, lines 87–141: weighted
buy-vs-sell imbalance, clamped to `[-1, 1]`, `0` for a missing or empty
window or zero weighted volume. -/
def calculateImbalance (s : State) (sym : String) (now : ℚ) : ℚ :=
  match lookupKey s.tradeWindows sym with
  | none => 0
  | some window =>
    if window = [] then 0
    else
      let bs := window.foldl (volumeStep now) (0, 0)
      if bs.1 + bs.2 = 0 then 0
      else max (-1) (min 1 ((bs.1 - bs.2) / (bs.1 + bs.2)))

/-- `OrderFlowAnalyzer._get_window_volume`, lines 182–187: the plain
(undecayed) sum of trade amounts in the window. -/
def getWindowVolume (s : State) (sym : String) : ℚ :=
  ((lookupKey s.tradeWindows sym).getD []).foldl (fun acc t => acc + t.amount) 0

/-- `OrderFlowAnalyzer._is_in_cooldown`, lines 189–194. -/
def isInCooldown (s : State) (sym : String) (now : ℚ) : Bool :=
  match lookupKey s.signalCooldowns sym with
  | none => false
  | some expiry => now < expiry

/-- `OrderFlowAnalyzer._set_cooldown`, lines 196–198. -/
def setCooldown (s : State) (sym : String) (now : ℚ) : State :=
  { s with signalCooldowns := updateKey s.signalCooldowns sym (now + cooldownPeriod) }

/-- `OrderFlowAnalyzer.is_signal_triggered`, lines 143–180. Returns the
Python pair `(should_trigger, signal_type)` together with the state after
the call (a firing records the cooldown). -/
def isSignalTriggered (s : State) (sym : String) (now : ℚ) :
    (Bool × Option String) × State :=
  if isInCooldown s sym now then ((false, none), s)
  else
    let imbalance := calculateImbalance s sym now
    let totalVolume := getWindowVolume s sym
    if totalVolume < minVolumeThreshold then ((false, none), s)
    else if imbalanceThreshold ≤ |imbalance| then
      let signalType := if 0 < imbalance then "BUY" else "SELL"
      ((true, some signalType), setCooldown s sym now)
    else ((false, none), s)

/-- The spec's formulation of `buyVolume`: time-decayed amounts of the
window's buy-side trades. -/
def specBuyVolume (now : ℚ) (window : List Trade) : ℚ :=
  ((window.filter (fun t => toLowerStr t.side = "buy")).map
    (fun t => t.amount * decayFactor now t.timestamp)).sum

/-- The spec's formulation of `sellVolume`. -/
def specSellVolume (now : ℚ) (window : List Trade) : ℚ :=
  ((window.filter (fun t => toLowerStr t.side = "sell")).map
    (fun t => t.amount * decayFactor now t.timestamp)).sum

/-- The spec's formulation of the imbalance:
`(buy - sell)/(buy + sell)` clamped to `[-1, 1]`, `0` when the decayed
total is zero. -/
def specImbalance (now : ℚ) (window : List Trade) : ℚ :=
  let b := specBuyVolume now window
  let v := specSellVolume now window
  if b + v = 0 then 0 else max (-1) (min 1 ((b - v) / (b + v)))

end OrderFlow

/-! ## Signal aggregator (`src/algorithms/signal_aggregator.py`) -/

namespace Aggregator

/-- A raw-signal record as stored in `recent_signals` (lines 69–76). -/
structure SignalRecord where
  symbol : String
  signalType : String
  algorithm : String
  confidence : ℚ
  weight : ℚ
  timestamp : ℚ
deriving DecidableEq

/-- A combined signal as stored in `combined_signals` (lines 213–226). -/
structure CombinedSignal where
  symbol : String
  signalType : String
  strength : ℚ
  timestamp : ℚ
  contributingAlgorithms : List String
  algorithmCount : ℕ
deriving DecidableEq

/-- `SignalAggregator` mutable state: the confirmation threshold (a
constructor argument, default 2), `recent_signals`, `symbol_cooldowns`
and the `combined_signals` history. -/
structure State where
  confirmationThreshold : ℕ
  recentSignals : List (String × List SignalRecord)
  symbolCooldowns : List (String × ℚ)
  combinedSignals : List CombinedSignal
deriving DecidableEq

/-- A fresh `SignalAggregator(confirmation_threshold=2)`. -/
def initialState : State := ⟨2, [], [], []⟩

/-- `self.signal_window_seconds` (30). -/
def signalWindowSeconds : ℚ := 30

/-- `self.cooldown_period` (300 s). -/
def cooldownPeriod : ℚ := 300

/-- `self.algorithm_weights.get(name, 1.0)` with the constructor's static
weight table (lines 30–34, 75). -/
def algorithmWeights (name : String) : ℚ :=
  if name = "order_flow" then 1
  else if name = "liquidity" then 1
  else if name = "volume_price" then 4/5
  else 1

/-- `SignalAggregator._is_in_cooldown`, lines 281–286. -/
def isInCooldown (s : State) (sym : String) (now : ℚ) : Bool :=
  match lookupKey s.symbolCooldowns sym with
  | none => false
  | some expiry => now < expiry

/-- `SignalAggregator._set_cooldown`, lines 288–290. -/
def setCooldown (s : State) (sym : String) (now : ℚ) : State :=
  { s with symbolCooldowns := updateKey s.symbolCooldowns sym (now + cooldownPeriod) }

/-- `SignalAggregator._clean_old_signals`, lines 104–119: keep signals
with `timestamp > now - window`, deleting the symbol's entry if none
remain. -/
def cleanOldSignals (s : State) (sym : String) (now : ℚ) : State :=
  match lookupKey s.recentSignals sym with
  | none => s
  | some l =>
    let kept := l.filter (fun r => now - signalWindowSeconds < r.timestamp)
    if kept = [] then { s with recentSignals := eraseKey s.recentSignals sym }
    else { s with recentSignals := updateKey s.recentSignals sym kept }

/-- Time decay of a retained signal, `max(0.5, 1 - age/window)`
(lines 186–187). -/
def timeDecay (now ts : ℚ) : ℚ :=
  max (1/2) (1 - (now - ts) / signalWindowSeconds)

/-- One iteration of the strength accumulation loop (lines 181–191); the
pair is `(total_weighted_confidence, total_weight)`. -/
def strengthStep (now : ℚ) (acc : ℚ × ℚ) (r : SignalRecord) : ℚ × ℚ :=
  let effectiveWeight := r.weight * timeDecay now r.timestamp
  (acc.1 + r.confidence * effectiveWeight, acc.2 + effectiveWeight)

/-- Number of distinct contributing algorithms,
`len(set(signal['algorithm'] for signal in signals))`. -/
def uniqueAlgorithms (signals : List SignalRecord) : ℕ :=
  ((signals.map (fun r => r.algorithm)).dedup).length

/-- `SignalAggregator._calculate_combined_strength`, lines 164–208:
time-decayed weighted average of confidences plus the diversity bonus,
capped at 1. -/
def calculateCombinedStrength (now : ℚ) (signals : List SignalRecord) : ℚ :=
  if signals = [] then 0
  else
    let tw := signals.foldl (strengthStep now) (0, 0)
    if tw.2 = 0 then 0
    else
      let combined := tw.1 / tw.2
      let bonus := min (1/5) (((uniqueAlgorithms signals : ℚ) - 1) * (1/10))
      min 1 (combined + bonus)

/-- `SignalAggregator._check_confirmation`, lines 121–162: count and
algorithm diversity of the retained same-direction signals against the
threshold. -/
def checkConfirmation (s : State) (sym signalType : String) (now : ℚ) : Bool × ℚ :=
  match lookupKey s.recentSignals sym with
  | none => (false, 0)
  | some l =>
    let matching := l.filter (fun r => r.signalType = signalType)
    if matching.length < s.confirmationThreshold then (false, 0)
    else if uniqueAlgorithms matching < s.confirmationThreshold then (false, 0)
    else (true, calculateCombinedStrength now matching)

/-- `SignalAggregator._generate_combined_signal`, lines 210–238. -/
def generateCombinedSignal (s : State) (sym signalType : String)
    (strength : ℚ) (now : ℚ) : State :=
  let l := (lookupKey s.recentSignals sym).getD []
  let matching := l.filter (fun r => r.signalType = signalType)
  let cs : CombinedSignal :=
    ⟨sym, signalType, strength, now, matching.map (fun r => r.algorithm),
      uniqueAlgorithms matching⟩
  { s with combinedSignals := s.combinedSignals ++ [cs] }

/-- `self.recent_signals[symbol].append(signal_record)` (line 79, on the
`defaultdict`). -/
def appendSignal (s : State) (sym : String) (r : SignalRecord) : State :=
  { s with recentSignals :=
      updateKey s.recentSignals sym ((lookupKey s.recentSignals sym).getD [] ++ [r]) }

/-- `SignalAggregator.add_algorithm_signal`, lines 48–102: drop the signal
during cooldown; otherwise append the record, prune the window, check
confirmation, and on confirmation emit one combined signal and start the
300 s cooldown. Returns the Python boolean together with the post state. -/
def addAlgorithmSignal (s : State) (sym signalType algorithmName : String)
    (confidence : ℚ) (now : ℚ) : Bool × State :=
  if isInCooldown s sym now then (false, s)
  else
    let r : SignalRecord :=
      ⟨sym, signalType, algorithmName, confidence, algorithmWeights algorithmName, now⟩
    let s2 := cleanOldSignals (appendSignal s sym r) sym now
    let cc := checkConfirmation s2 sym signalType now
    if cc.1 then (true, setCooldown (generateCombinedSignal s2 sym signalType cc.2 now) sym now)
    else (false, s2)

/-- C1's confirmation condition over a list of retained signals: at least
two share the direction and they come from at least two distinct
algorithms. -/
def confirmationCondition (l : List SignalRecord) (signalType : String) : Prop :=
  2 ≤ (l.filter (fun r => r.signalType = signalType)).length ∧
  2 ≤ uniqueAlgorithms (l.filter (fun r => r.signalType = signalType))

instance (l : List SignalRecord) (t : String) : Decidable (confirmationCondition l t) := by
  unfold confirmationCondition
  infer_instance

/-- The spec's per-signal effective weight
`staticWeight(algorithm) × max(0.5, 1 − age/windowSeconds)`; on records
created by `add_algorithm_signal` the stored `weight` is the static
weight. -/
def specEffectiveWeight (now : ℚ) (r : SignalRecord) : ℚ :=
  r.weight * timeDecay now r.timestamp

/-- The spec's weighted average of confidences. -/
def specWeightedAverage (now : ℚ) (l : List SignalRecord) : ℚ :=
  ((l.map (fun r => r.confidence * specEffectiveWeight now r)).sum) /
    ((l.map (specEffectiveWeight now)).sum)

/-- The spec's diversity bonus `min(0.2, (distinctAlgorithms − 1) × 0.1)`. -/
def specDiversityBonus (l : List SignalRecord) : ℚ :=
  min (1/5) (((uniqueAlgorithms l : ℚ) - 1) * (1/10))

end Aggregator

/-! ## Market regime filter (`src/risk/market_regime.py`) -/

namespace Regime

/-- The four market regimes (the Python strings `CALM`, `NORMAL`,
`VOLATILE`, `HIGHLY_VOLATILE`). -/
inductive Kind where
  | CALM
  | NORMAL
  | VOLATILE
  | HIGHLY_VOLATILE
deriving DecidableEq

/-- The hysteresis state (`current_regime`, `pending_regime`,
`regime_confirmations`), §3 `RegimeState`. -/
structure State where
  current : Kind
  pending : Option Kind
  confirmations : ℕ
deriving DecidableEq

/-- `self.regime_persistence` (3 confirmations). -/
def regimePersistence : ℕ := 3

/-- `MarketRegimeFilter.get_market_regime`, lines 153–180: bucket the max
of the BTC and ETH volatilities against the thresholds
(0.05 / 0.10 / 0.20). -/
def getMarketRegime (btcVolatility ethVolatility : ℚ) : Kind :=
  let maxVolatility := max btcVolatility ethVolatility
  if 1/5 ≤ maxVolatility then .HIGHLY_VOLATILE
  else if 1/10 ≤ maxVolatility then .VOLATILE
  else if 1/20 ≤ maxVolatility then .NORMAL
  else .CALM

/-- The hysteresis core of `MarketRegimeFilter._update_market_regime`,
lines 206–238, as a function of the freshly computed candidate regime:
a candidate differing from the committed regime bumps (or restarts) the
confirmation count and commits only at `regime_persistence`; observing
the committed regime resets the pending state. -/
def step (s : State) (newRegime : Kind) : State :=
  if newRegime ≠ s.current then
    let p := if s.pending = some newRegime then (s.pending, s.confirmations + 1)
             else (some newRegime, 1)
    if regimePersistence ≤ p.2 then ⟨newRegime, none, 0⟩
    else ⟨s.current, p.1, p.2⟩
  else ⟨s.current, none, 0⟩

/-- A sequence of regime-filter evaluations applied in order. -/
def run (s : State) (candidates : List Kind) : State :=
  candidates.foldl step s

end Regime

/-! ## Cooldown manager (`src/risk/cooldown.py`) -/

namespace Cooldown

/-- One recorded signal outcome (`record_signal_result`, lines 208–213). -/
structure SignalResult where
  timestamp : ℚ
  success : Bool
  profit : ℚ
deriving DecidableEq

/-- `CooldownManager` mutable state: active cooldowns (symbol → expiry
time), per-symbol custom base durations, and the per-symbol outcome
history. The constructor fixes `dynamic_adjustment = True`; the derived
`success_rates` statistics dict is reporting-only and omitted. -/
structure State where
  cooldownPeriods : List (String × ℚ)
  symbolSpecificCooldowns : List (String × ℕ)
  signalHistory : List (String × List SignalResult)
deriving DecidableEq

/-- A fresh `CooldownManager()`. -/
def initialState : State := ⟨[], [], []⟩

/-- `self.default_cooldown_minutes` (15). -/
def defaultCooldownMinutes : ℕ := 15

/-- `self.min_cooldown_minutes` (5). -/
def minCooldownMinutes : ℕ := 5

/-- `self.max_cooldown_minutes` (60). -/
def maxCooldownMinutes : ℕ := 60

/-- `self.success_rate_window` (10). -/
def successRateWindow : ℕ := 10

/-- `successful_signals / len(recent_signals)` (lines 97–98). -/
def successRate (recent : List SignalResult) : ℚ :=
  (recent.countP (fun r => r.success) : ℚ) / (recent.length : ℚ)

/-- The success-rate bracket table (lines 100–110). -/
def adjustmentFactor (rate : ℚ) : ℚ :=
  if 4/5 ≤ rate then 7/10
  else if 3/5 ≤ rate then 17/20
  else if 2/5 ≤ rate then 1
  else if 1/5 ≤ rate then 3/2
  else 2

/-- `CooldownManager._calculate_dynamic_cooldown`, lines 74–126: the base
duration (symbol-specific or the 15-minute default) times the bracket
factor for the success rate of the last 10 recorded outcomes, truncated
with `int()` and clamped to `[5, 60]`; a symbol without history keeps its
base duration. -/
def calculateDynamicCooldown (s : State) (sym : String) : ℕ :=
  let base := (lookupKey s.symbolSpecificCooldowns sym).getD defaultCooldownMinutes
  match lookupKey s.signalHistory sym with
  | none => base
  | some hist =>
    if hist = [] then base
    else
      let recent := takeLast successRateWindow hist
      if recent = [] then base
      else
        let adjusted := Int.toNat ⌊(base : ℚ) * adjustmentFactor (successRate recent)⌋
        max minCooldownMinutes (min maxCooldownMinutes adjusted)

/-- `CooldownManager.set_cooldown`, lines 45–72 (with the constructor's
`dynamic_adjustment = True`): omitted minutes default to the dynamic
duration; the expiry is `now + minutes` (60 s per minute). -/
def setCooldown (s : State) (sym : String) (minutes : Option ℕ) (now : ℚ) : State :=
  let m := match minutes with
    | some m => m
    | none => calculateDynamicCooldown s sym
  { s with cooldownPeriods := updateKey s.cooldownPeriods sym (now + 60 * m) }

/-- `CooldownManager.is_in_cooldown`, lines 128–162: lazily delete an
entry whose expiry has passed and report `False`; report `True` while the
expiry is strictly in the future. -/
def isInCooldown (s : State) (sym : String) (now : ℚ) : Bool × State :=
  match lookupKey s.cooldownPeriods sym with
  | none => (false, s)
  | some expiry =>
    if expiry ≤ now then
      (false, { s with cooldownPeriods := eraseKey s.cooldownPeriods sym })
    else (true, s)

/-- `CooldownManager.get_remaining_cooldown`, lines 164–192: lazily delete
an expired entry and report `None`; otherwise the truncated number of
remaining seconds. -/
def getRemainingCooldown (s : State) (sym : String) (now : ℚ) : Option ℕ × State :=
  match lookupKey s.cooldownPeriods sym with
  | none => (none, s)
  | some expiry =>
    if expiry ≤ now then
      (none, { s with cooldownPeriods := eraseKey s.cooldownPeriods sym })
    else (some (max 0 (Int.toNat ⌊expiry - now⌋)), s)

/-- `CooldownManager.record_signal_result`, lines 194–228: append the
outcome and keep only the last `3 × success_rate_window` entries. -/
def recordSignalResult (s : State) (sym : String) (success : Bool) (profit : ℚ)
    (now : ℚ) : State :=
  let hist := (lookupKey s.signalHistory sym).getD [] ++ [⟨now, success, profit⟩]
  let kept := if successRateWindow * 3 < hist.length
    then takeLast (successRateWindow * 3) hist else hist
  { s with signalHistory := updateKey s.signalHistory sym kept }

end Cooldown

/-! ## Liquidity event detector (`src/algorithms/liquidity.py`) -/

namespace Liquidity

/-- One liquidity reading (`total_liquidity`, `timestamp`), §3
`LiquiditySnapshot`. -/
structure LiquidityPoint where
  totalLiquidity : ℚ
  timestamp : ℚ
deriving DecidableEq

/-- `LiquidityAnalyzer` mutable state: `liquidity_windows` and
`signal_cooldowns`. -/
structure State where
  liquidityWindows : List (String × List LiquidityPoint)
  signalCooldowns : List (String × ℚ)
deriving DecidableEq

/-- `window_seconds` default (60). -/
def windowSeconds : ℚ := 60

/-- `self.change_rate_threshold` (0.1 per second). -/
def changeRateThreshold : ℚ := 1/10

/-- `self.acceleration_threshold` (0.05 per second²). -/
def accelerationThreshold : ℚ := 1/20

/-- `self.min_liquidity_threshold` (10 000). -/
def minLiquidityThreshold : ℚ := 10000

/-- `self.cooldown_period` (120 s). -/
def cooldownPeriod : ℚ := 120

/-- `df.sort_values('timestamp')`: sort the window by timestamp
(ties keep an unspecified order in pandas quicksort; insertion sort is an
adequate model, and the window is timestamp-ordered anyway). -/
def sortByTime (l : List LiquidityPoint) : List LiquidityPoint :=
  List.insertionSort (fun a b => a.timestamp ≤ b.timestamp) l

/-- The `change_rate` column of `calculate_liquidity_change_rate`
(lines 119–124): `liquidity_pct_change / time_diff` per row, with `none`
as the NaN of the first row. -/
def rateSeries (rows : List LiquidityPoint) : List (Option ℚ) :=
  none :: (adjacentPairs rows).map (fun p =>
    some (((p.2.totalLiquidity - p.1.totalLiquidity) / p.1.totalLiquidity) /
      (p.2.timestamp - p.1.timestamp)))

/-- The `time_diff` column (`df['timestamp'].diff()` in seconds). -/
def timeDiffSeries (rows : List LiquidityPoint) : List (Option ℚ) :=
  none :: (adjacentPairs rows).map (fun p => some (p.2.timestamp - p.1.timestamp))

/-- `Series.diff()`: NaN-propagating consecutive differences. -/
def diffSeries (xs : List (Option ℚ)) : List (Option ℚ) :=
  none :: (adjacentPairs xs).map (fun p =>
    match p.1, p.2 with
    | some a, some b => some (b - a)
    | _, _ => none)

/-- The `acceleration` column of `calculate_liquidity_acceleration`
(lines 174–181): `rate_diff / time_diff` per row. -/
def accelSeries (rows : List LiquidityPoint) : List (Option ℚ) :=
  List.zipWith (fun d r =>
    match d, r with
    | some dt, some rd => some (rd / dt)
    | _, _ => none)
    (timeDiffSeries rows) (diffSeries (rateSeries rows))

/-- Accumulator for the final cell of `Series.ewm(span).mean()`
(adjust=True, ignore_na=False): processing the REVERSED series, a valid
cell at distance `j` from the end contributes weight `(1-a)^j`, so one
step back multiplies both running sums by `(1-a)`. Returns
`(weighted value sum, weight sum)`. -/
def ewmAccum (a : ℚ) : List (Option ℚ) → ℚ × ℚ
  | [] => (0, 0)
  | none :: rest =>
    let p := ewmAccum a rest
    ((1 - a) * p.1, (1 - a) * p.2)
  | some v :: rest =>
    let p := ewmAccum a rest
    (v + (1 - a) * p.1, 1 + (1 - a) * p.2)

/-- Final cell of `Series.ewm(span).mean()` with `a = 2/(span+1)`:
the weighted mean `Σ (1-a)^(n-1-i)·xᵢ / Σ (1-a)^(n-1-i)` over non-NaN
cells, `none` (NaN) when no cell is valid. -/
def ewmLastAdjusted (a : ℚ) (xs : List (Option ℚ)) : Option ℚ :=
  let p := ewmAccum a xs.reverse
  if p.2 = 0 then none else some (p.1 / p.2)

/-- `LiquidityAnalyzer.calculate_liquidity_change_rate`, lines 89–142:
exponentially smoothed (span 5, `a = 1/3`) latest percentage change per
second; `0` for a missing window, fewer than 2 points, or a NaN result. -/
def calculateLiquidityChangeRate (s : State) (sym : String) : ℚ :=
  match lookupKey s.liquidityWindows sym with
  | none => 0
  | some w =>
    if w.length < 2 then 0
    else (ewmLastAdjusted (1/3) (rateSeries (sortByTime w))).getD 0

/-- `LiquidityAnalyzer.calculate_liquidity_acceleration`, lines 144–199:
exponentially smoothed (span 3, `a = 1/2`) latest second derivative; `0`
for a missing window, fewer than 3 points, or a NaN result. -/
def calculateLiquidityAcceleration (s : State) (sym : String) : ℚ :=
  match lookupKey s.liquidityWindows sym with
  | none => 0
  | some w =>
    if w.length < 3 then 0
    else (ewmLastAdjusted (1/2) (accelSeries (sortByTime w))).getD 0

/-- `LiquidityAnalyzer._meets_liquidity_threshold`, lines 248–258: the
most recent reading is at least 10 000. -/
def meetsLiquidityThreshold (s : State) (sym : String) : Bool :=
  match lookupKey s.liquidityWindows sym with
  | none => false
  | some w =>
    match w.getLast? with
    | none => false
    | some p => minLiquidityThreshold ≤ p.totalLiquidity

/-- `LiquidityAnalyzer._is_in_cooldown`, lines 260–265. -/
def isInCooldown (s : State) (sym : String) (now : ℚ) : Bool :=
  match lookupKey s.signalCooldowns sym with
  | none => false
  | some expiry => now < expiry

/-- `LiquidityAnalyzer._set_cooldown`, lines 267–269. -/
def setCooldown (s : State) (sym : String) (now : ℚ) : State :=
  { s with signalCooldowns := updateKey s.signalCooldowns sym (now + cooldownPeriod) }

/-- `LiquidityAnalyzer.is_signal_triggered`, lines 201–246: fire when the
latest reading meets the liquidity floor and either statistic crosses its
threshold; the direction is LIQUIDITY_INCREASE when `change_rate > 0 or
acceleration > 0`, else LIQUIDITY_DECREASE (lines 229–232). -/
def isSignalTriggered (s : State) (sym : String) (now : ℚ) :
    (Bool × Option String) × State :=
  if isInCooldown s sym now then ((false, none), s)
  else if meetsLiquidityThreshold s sym = false then ((false, none), s)
  else
    let changeRate := calculateLiquidityChangeRate s sym
    let acceleration := calculateLiquidityAcceleration s sym
    if changeRateThreshold ≤ |changeRate| ∨ accelerationThreshold ≤ |acceleration| then
      let signalType := if 0 < changeRate ∨ 0 < acceleration
        then "LIQUIDITY_INCREASE" else "LIQUIDITY_DECREASE"
      ((true, some signalType), setCooldown s sym now)
    else ((false, none), s)

end Liquidity

/-! ## Volume-price correlation detector (`src/algorithms/volume_price.py`)

The correlation and standard-deviation statistics genuinely take square
roots and logarithms, so they live in `ℝ` (noncomputable); every guard on
the no-data paths stays in `ℚ`/`ℕ` and evaluates. -/

namespace VolumePrice

/-- A price reading (`price`, `timestamp`), §3 `PriceSample`. -/
structure PricePoint where
  price : ℚ
  timestamp : ℚ
deriving DecidableEq

/-- A volume reading (`volume`, `timestamp`), §3 `VolumeSample`. -/
structure VolumePoint where
  volume : ℚ
  timestamp : ℚ
deriving DecidableEq

/-- `VolumePriceAnalyzer` mutable state: `price_windows`,
`volume_windows` and `signal_cooldowns`. -/
structure State where
  priceWindows : List (String × List PricePoint)
  volumeWindows : List (String × List VolumePoint)
  signalCooldowns : List (String × ℚ)
deriving DecidableEq

/-- `window_seconds` default (120). -/
def windowSeconds : ℚ := 120

/-- `self.correlation_threshold` (0.3). -/
def correlationThreshold : ℚ := 3/10

/-- `self.volume_multiplier_threshold` (2.0). -/
def volumeMultiplierThreshold : ℚ := 2

/-- `self.price_stability_threshold` (0.005). -/
def priceStabilityThreshold : ℚ := 1/200

/-- `self.cooldown_period` (180 s). -/
def cooldownPeriod : ℚ := 180

/-- `price_df.sort_values('timestamp')` (model: insertion sort). -/
def sortPrices (l : List PricePoint) : List PricePoint :=
  List.insertionSort (fun a b => a.timestamp ≤ b.timestamp) l

/-- `volume_df.sort_values('timestamp')` (model: insertion sort). -/
def sortVolumes (l : List VolumePoint) : List VolumePoint :=
  List.insertionSort (fun a b => a.timestamp ≤ b.timestamp) l

/-- `pd.merge_asof(..., direction='nearest', tolerance=30s)` for one left
row: the volume whose timestamp is nearest to `t` within 30 s (ties keep
the earlier row in this model), `none` (NaN) when no row is in range. -/
def nearestVolume (vols : List VolumePoint) (t : ℚ) : Option ℚ :=
  (vols.foldl (fun best v =>
    match best with
    | none => if |v.timestamp - t| ≤ 30 then some v else none
    | some b => if |v.timestamp - t| < |b.timestamp - t| then some v else some b)
    none).map (fun v => v.volume)

/-- The aligned (merged) rows: each sorted price row with its matched
volume. -/
def mergedRows (prices : List PricePoint) (vols : List VolumePoint) :
    List (ℚ × Option ℚ) :=
  prices.map (fun p => (p.price, nearestVolume vols p.timestamp))

/-- The rows surviving `dropna()` (lines 183–191): consecutive aligned
rows with both volumes present give
`(price pct change, log(v₁+1) − log(v₀+1))`. -/
noncomputable def cleanRows (rows : List (ℚ × Option ℚ)) : List (ℝ × ℝ) :=
  (adjacentPairs rows).filterMap (fun p =>
    match p.1.2, p.2.2 with
    | some v0, some v1 =>
      some ((((p.2.1 - p.1.1) / p.1.1 : ℚ) : ℝ),
        Real.log ((v1 : ℝ) + 1) - Real.log ((v0 : ℝ) + 1))
    | _, _ => none)

/-- The Pearson denominator `sqrt(Σ(x−x̄)²·Σ(y−ȳ)²)`; it vanishes exactly
when `scipy.stats.pearsonr` would return NaN. -/
noncomputable def pearsonDenom (xy : List (ℝ × ℝ)) : ℝ :=
  let n : ℝ := xy.length
  let mx := (xy.map Prod.fst).sum / n
  let my := (xy.map Prod.snd).sum / n
  Real.sqrt (((xy.map (fun p => (p.1 - mx)^2)).sum) *
    ((xy.map (fun p => (p.2 - my)^2)).sum))

/-- `scipy.stats.pearsonr` with the caller's NaN-to-0 mapping
(lines 197–201). -/
noncomputable def pearson (xy : List (ℝ × ℝ)) : ℝ :=
  let n : ℝ := xy.length
  let mx := (xy.map Prod.fst).sum / n
  let my := (xy.map Prod.snd).sum / n
  if pearsonDenom xy = 0 then 0
  else ((xy.map (fun p => (p.1 - mx) * (p.2 - my))).sum) / pearsonDenom xy

/-- `VolumePriceAnalyzer.calculate_correlation`, lines 133–219: align the
two streams by nearest timestamp, correlate price returns with
log-volume deltas, and blend `0.7·recent(10) + 0.3·global` once more than
10 clean points exist (the recent batch of 10 always passes the `>= 5`
length check). -/
noncomputable def calculateCorrelation (s : State) (sym : String) : ℝ :=
  match lookupKey s.priceWindows sym, lookupKey s.volumeWindows sym with
  | some pw, some vw =>
    if pw.length < 5 ∨ vw.length < 5 then 0
    else
      let merged := mergedRows (sortPrices pw) (sortVolumes vw)
      if merged.length < 5 then 0
      else
        let clean := cleanRows merged
        if clean.length < 5 then 0
        else
          let corr := pearson clean
          if 10 < clean.length then
            let recent := takeLast 10 clean
            if pearsonDenom recent = 0 then corr
            else (7/10) * pearson recent + (3/10) * corr
          else corr
  | _, _ => 0

/-- `VolumePriceAnalyzer.calculate_volume_increase`, lines 221–261: mean
volume of the second half of the window over the first half, defaulting
to 1. -/
def calculateVolumeIncrease (s : State) (sym : String) : ℚ :=
  match lookupKey s.volumeWindows sym with
  | none => 1
  | some w =>
    if w.length < 10 then 1
    else
      let mid := w.length / 2
      let early := (w.take mid).map (fun p => p.volume)
      let recent := (w.drop mid).map (fun p => p.volume)
      if early = [] ∨ recent = [] then 1
      else
        let earlyAvg := early.sum / (early.length : ℚ)
        let recentAvg := recent.sum / (recent.length : ℚ)
        if earlyAvg = 0 then 1 else recentAvg / earlyAvg

/-- `VolumePriceAnalyzer.calculate_price_stability`, lines 263–295:
population standard deviation of consecutive returns, defaulting to 1. -/
noncomputable def calculatePriceStability (s : State) (sym : String) : ℝ :=
  match lookupKey s.priceWindows sym with
  | none => 1
  | some w =>
    if w.length < 5 then 1
    else
      let changes := (adjacentPairs (w.map (fun p => p.price))).map
        (fun p => ((p.2 - p.1) / p.1 : ℚ))
      if changes = [] then 1
      else
        let m : ℝ := ((changes.sum : ℚ) : ℝ) / (changes.length : ℝ)
        Real.sqrt (((changes.map (fun c => ((c : ℝ) - m)^2)).sum) /
          (changes.length : ℝ))

/-- `VolumePriceAnalyzer._is_in_cooldown`, lines 359–364. -/
def isInCooldown (s : State) (sym : String) (now : ℚ) : Bool :=
  match lookupKey s.signalCooldowns sym with
  | none => false
  | some expiry => now < expiry

/-- `VolumePriceAnalyzer._set_cooldown`, lines 366–368. -/
def setCooldown (s : State) (sym : String) (now : ℚ) : State :=
  { s with signalCooldowns := updateKey s.signalCooldowns sym (now + cooldownPeriod) }

open Classical in
/-- `VolumePriceAnalyzer.is_signal_triggered`, lines 297–357: the three
pattern tests with Python's short-circuit `and` as nested conditionals,
tried in the order accumulation → distribution → breakout. -/
noncomputable def isSignalTriggered (s : State) (sym : String) (now : ℚ) :
    (Bool × Option String) × State :=
  if isInCooldown s sym now then ((false, none), s)
  else
    let correlation := calculateCorrelation s sym
    let volumeIncrease := calculateVolumeIncrease s sym
    let priceStability := calculatePriceStability s sym
    let isAccumulation :=
      if volumeMultiplierThreshold ≤ volumeIncrease then
        if priceStability ≤ ((priceStabilityThreshold : ℚ) : ℝ) then
          if |correlation| ≤ ((correlationThreshold : ℚ) : ℝ) then true else false
        else false
      else false
    let isDistribution :=
      if volumeMultiplierThreshold ≤ volumeIncrease then
        if priceStability ≤ ((priceStabilityThreshold : ℚ) : ℝ) then
          if correlation < -((correlationThreshold : ℚ) : ℝ) then true else false
        else false
      else false
    let isBreakout :=
      if volumeMultiplierThreshold ≤ volumeIncrease then
        if ((correlationThreshold : ℚ) : ℝ) < correlation then true else false
      else false
    if isAccumulation then ((true, some "ACCUMULATION"), setCooldown s sym now)
    else if isDistribution then ((true, some "DISTRIBUTION"), setCooldown s sym now)
    else if isBreakout then ((true, some "BREAKOUT"), setCooldown s sym now)
    else ((false, none), s)

end VolumePrice

end ATS

namespace ATS

/-- The buy/sell accumulation loop of `calculate_imbalance` computes the
two decayed side sums. -/
theorem orderFlow_volumeStep_foldl (now : ℚ) (window : List OrderFlow.Trade) (a b : ℚ) :
    window.foldl (OrderFlow.volumeStep now) (a, b) =
      (a + OrderFlow.specBuyVolume now window, b + OrderFlow.specSellVolume now window) := by
  induction window generalizing a b with
  | nil => simp [OrderFlow.specBuyVolume, OrderFlow.specSellVolume]
  | cons t rest ih =>
    simp only [List.foldl_cons]
    by_cases hb : toLowerStr t.side = "buy"
    · have hstep : OrderFlow.volumeStep now (a, b) t =
          (a + t.amount * OrderFlow.decayFactor now t.timestamp, b) := by
        simp [OrderFlow.volumeStep, hb]
      rw [hstep, ih]
      simp only [OrderFlow.specBuyVolume, OrderFlow.specSellVolume, List.filter_cons]
      simp [hb]
      ring
    · by_cases hs : toLowerStr t.side = "sell"
      · have hstep : OrderFlow.volumeStep now (a, b) t =
            (a, b + t.amount * OrderFlow.decayFactor now t.timestamp) := by
          simp [OrderFlow.volumeStep, hb, hs]
        rw [hstep, ih]
        simp only [OrderFlow.specBuyVolume, OrderFlow.specSellVolume, List.filter_cons]
        simp [hb, hs]
        ring
      · have hstep : OrderFlow.volumeStep now (a, b) t = (a, b) := by
          simp [OrderFlow.volumeStep, hb, hs]
        rw [hstep, ih]
        simp only [OrderFlow.specBuyVolume, OrderFlow.specSellVolume, List.filter_cons]
        simp [hb, hs]

/-- The loop-based `calculate_imbalance` agrees with the spec's sum-based
clamped formula on the symbol's retained window. -/
theorem orderFlow_imbalance_eq_spec (s : OrderFlow.State) (sym : String) (now : ℚ) :
    OrderFlow.calculateImbalance s sym now =
      OrderFlow.specImbalance now ((lookupKey s.tradeWindows sym).getD []) := by
  unfold OrderFlow.calculateImbalance OrderFlow.specImbalance
  cases h : lookupKey s.tradeWindows sym with
  | none =>
    simp [OrderFlow.specBuyVolume, OrderFlow.specSellVolume]
  | some w =>
    simp only [Option.getD_some]
    by_cases hw : w = []
    · subst hw
      simp [OrderFlow.specBuyVolume, OrderFlow.specSellVolume]
    · rw [if_neg hw, orderFlow_volumeStep_foldl now w 0 0]
      simp

/-- C3: `should_cancel_signal(estimated_slippage, predicted_profit)` vetoes
iff `estimated_slippage > 0.02` or
`predicted_profit - (estimated_slippage + 0.001) < 0.001`; in particular
`should_cancel_signal(slippage, 0.015)` is `False` exactly when
`slippage + 0.001 <= 0.014`. -/
theorem slippage_shouldCancel_c3 (slip profit : ℚ) :
    (Slippage.shouldCancelSignal slip profit = true ↔
      (1/50 < slip ∨ profit - (slip + 1/1000) < 1/1000)) ∧
    (Slippage.shouldCancelSignal slip (3/200) = false ↔ slip + 1/1000 ≤ 7/500) := by
  constructor
  · unfold Slippage.shouldCancelSignal
      Slippage.maxSlippageThreshold Slippage.transactionFeeRate
      Slippage.minProfitAfterSlippage
    split
    · simp_all
    · split <;> simp_all
  · unfold Slippage.shouldCancelSignal
      Slippage.maxSlippageThreshold Slippage.transactionFeeRate
      Slippage.minProfitAfterSlippage
    split
    · constructor
      · intro h; simp at h
      · intro h; linarith
    · split
      · constructor
        · intro h; simp at h
        · intro h
          exfalso
          have h2 : (3/200 : ℚ) - (slip + 1/1000) < 1/1000 := by assumption
          linarith
      · constructor
        · intro _
          have h2 : ¬ ((3/200 : ℚ) - (slip + 1/1000) < 1/1000) := by assumption
          linarith
        · intro _; rfl

end ATS

namespace ATS

/-- C2: for a symbol not in its 60 s cooldown, the order-flow detector
fires iff the window's (plain) total volume is at least 1000 and the
absolute decayed imbalance is at least 0.6; the imbalance equals the
spec's clamped `(buy-sell)/(buy+sell)` formula with per-trade decay
`max(0.1, 1 - age/window)`, and the fired direction is `BUY` for positive
imbalance and `SELL` otherwise. -/
theorem orderFlow_trigger_c2 (s : OrderFlow.State) (sym : String) (now : ℚ)
    (h : OrderFlow.isInCooldown s sym now = false) :
    ((OrderFlow.isSignalTriggered s sym now).1.1 = true ↔
      (OrderFlow.minVolumeThreshold ≤ OrderFlow.getWindowVolume s sym ∧
       OrderFlow.imbalanceThreshold ≤ |OrderFlow.calculateImbalance s sym now|)) ∧
    ((OrderFlow.isSignalTriggered s sym now).1.1 = true →
      (OrderFlow.isSignalTriggered s sym now).1.2 =
        some (if 0 < OrderFlow.calculateImbalance s sym now then "BUY" else "SELL")) ∧
    OrderFlow.calculateImbalance s sym now =
      OrderFlow.specImbalance now ((lookupKey s.tradeWindows sym).getD []) := by
  refine ⟨?_, ?_, orderFlow_imbalance_eq_spec s sym now⟩
  · unfold OrderFlow.isSignalTriggered
    rw [h]
    simp only [Bool.false_eq_true, if_false]
    split
    · rename_i hv
      constructor
      · intro hfalse; simp at hfalse
      · intro hc
        exfalso
        exact absurd hc.1 (not_le.mpr hv)
    · rename_i hv
      split
      · rename_i hi
        simp only [true_iff]
        exact ⟨not_lt.mp hv, hi⟩
      · rename_i hi
        constructor
        · intro hfalse; simp at hfalse
        · intro hc; exact absurd hc.2 hi
  · unfold OrderFlow.isSignalTriggered
    rw [h]
    simp only [Bool.false_eq_true, if_false]
    split
    · intro hfalse; simp at hfalse
    · split
      · intro _; rfl
      · intro hfalse; simp at hfalse

/-- A concrete firing state for `orderFlow_trigger_c2`: ten buy trades of
amount 150 at time 0, checked at time 0. -/
def orderFlowWitnessState : OrderFlow.State :=
  { tradeWindows :=
      [("TKN", List.replicate 10 ⟨"buy", 150, 1, 0⟩)],
    signalCooldowns := [] }

/-- Witness for `orderFlow_trigger_c2`: the hypothesis holds at the
concrete state and the detector indeed fires `BUY` there. -/
theorem orderFlow_trigger_c2_witness :
    OrderFlow.isInCooldown orderFlowWitnessState "TKN" 0 = false ∧
    (OrderFlow.isSignalTriggered orderFlowWitnessState "TKN" 0).1.1 = true := by
  have h : OrderFlow.isInCooldown orderFlowWitnessState "TKN" 0 = false := by
    simp [OrderFlow.isInCooldown, orderFlowWitnessState, lookupKey]
  refine ⟨h, ?_⟩
  refine ((orderFlow_trigger_c2 orderFlowWitnessState "TKN" 0 h).1).mpr ⟨?_, ?_⟩
  · show OrderFlow.minVolumeThreshold ≤ OrderFlow.getWindowVolume orderFlowWitnessState "TKN"
    simp only [OrderFlow.getWindowVolume, orderFlowWitnessState, lookupKey,
      OrderFlow.minVolumeThreshold]
    norm_num [List.replicate, List.foldl]
  · rw [orderFlow_imbalance_eq_spec]
    simp only [orderFlowWitnessState, lookupKey]
    norm_num [OrderFlow.specImbalance, OrderFlow.specBuyVolume, OrderFlow.specSellVolume,
      OrderFlow.decayFactor, OrderFlow.imbalanceThreshold, OrderFlow.windowSeconds,
      List.replicate, List.filter, toLowerStr, List.map, List.sum]

end ATS

namespace ATS

/-- The strength accumulation loop computes the two sums of the spec's
weighted-average formula. -/
theorem aggregator_strengthStep_foldl (now : ℚ) (l : List Aggregator.SignalRecord) (a b : ℚ) :
    l.foldl (Aggregator.strengthStep now) (a, b) =
      (a + ((l.map (fun r => r.confidence * Aggregator.specEffectiveWeight now r)).sum),
       b + ((l.map (Aggregator.specEffectiveWeight now)).sum)) := by
  induction l generalizing a b with
  | nil => simp
  | cons r rest ih =>
    simp only [List.foldl_cons, Aggregator.strengthStep, ih, List.map_cons, List.sum_cons,
      Aggregator.specEffectiveWeight]
    rw [Prod.mk.injEq]
    exact ⟨by ring, by ring⟩

/-- The static algorithm weights are positive. -/
theorem aggregator_algorithmWeights_pos (name : String) :
    0 < Aggregator.algorithmWeights name := by
  unfold Aggregator.algorithmWeights
  split
  · norm_num
  · split
    · norm_num
    · split <;> norm_num

/-- The time decay factor is at least 1/2. -/
theorem aggregator_timeDecay_ge (now ts : ℚ) : 1/2 ≤ Aggregator.timeDecay now ts :=
  le_max_left _ _

/-- C7: on a non-empty list of raw-signal records with confidences in
[0,1] whose stored weight is the static algorithm weight, the combined
strength equals the spec's time-decayed weighted average of confidences
plus the diversity bonus capped at 1, and it lies in [0,1]. -/
theorem aggregator_strength_c7 (now : ℚ) (l : List Aggregator.SignalRecord)
    (hne : l ≠ [])
    (hconf : ∀ r ∈ l, 0 ≤ r.confidence ∧ r.confidence ≤ 1)
    (hw : ∀ r ∈ l, r.weight = Aggregator.algorithmWeights r.algorithm) :
    Aggregator.calculateCombinedStrength now l =
      min 1 (Aggregator.specWeightedAverage now l + Aggregator.specDiversityBonus l) ∧
    0 ≤ Aggregator.calculateCombinedStrength now l ∧
    Aggregator.calculateCombinedStrength now l ≤ 1 := by
  have hwpos : ∀ r ∈ l, 0 < Aggregator.specEffectiveWeight now r := by
    intro r hr
    unfold Aggregator.specEffectiveWeight
    have h1 : 0 < r.weight := by
      rw [hw r hr]; exact aggregator_algorithmWeights_pos r.algorithm
    have h2 : (0:ℚ) < Aggregator.timeDecay now r.timestamp :=
      lt_of_lt_of_le (by norm_num) (aggregator_timeDecay_ge now r.timestamp)
    positivity
  have hden : 0 < ((l.map (Aggregator.specEffectiveWeight now)).sum) := by
    apply List.sum_pos
    · intro x hx
      obtain ⟨r, hr, rfl⟩ := List.mem_map.mp hx
      exact hwpos r hr
    · simpa using hne
  have hnum0 : 0 ≤ ((l.map (fun r => r.confidence * Aggregator.specEffectiveWeight now r)).sum) := by
    apply List.sum_nonneg
    intro x hx
    obtain ⟨r, hr, rfl⟩ := List.mem_map.mp hx
    exact mul_nonneg (hconf r hr).1 (le_of_lt (hwpos r hr))
  have hnumle : ((l.map (fun r => r.confidence * Aggregator.specEffectiveWeight now r)).sum) ≤
      ((l.map (Aggregator.specEffectiveWeight now)).sum) := by
    apply List.sum_le_sum
    intro r hr
    calc r.confidence * Aggregator.specEffectiveWeight now r
        ≤ 1 * Aggregator.specEffectiveWeight now r := by
          apply mul_le_mul_of_nonneg_right (hconf r hr).2 (le_of_lt (hwpos r hr))
      _ = Aggregator.specEffectiveWeight now r := one_mul _
  have havg0 : 0 ≤ Aggregator.specWeightedAverage now l :=
    div_nonneg hnum0 (le_of_lt hden)
  have havg1 : Aggregator.specWeightedAverage now l ≤ 1 := by
    unfold Aggregator.specWeightedAverage
    rw [div_le_one hden]
    exact hnumle
  have huniq : 1 ≤ Aggregator.uniqueAlgorithms l := by
    unfold Aggregator.uniqueAlgorithms
    have hmap : (l.map (fun r => r.algorithm)) ≠ [] := by
      simpa using hne
    have : ((l.map (fun r => r.algorithm)).dedup) ≠ [] := by
      intro hd
      apply hmap
      rw [← List.dedup_eq_nil]
      exact hd
    exact List.length_pos.mpr this
  have hbonus0 : 0 ≤ Aggregator.specDiversityBonus l := by
    unfold Aggregator.specDiversityBonus
    apply le_min
    · norm_num
    · have : (1:ℚ) ≤ (Aggregator.uniqueAlgorithms l : ℚ) := by exact_mod_cast huniq
      nlinarith
  have heq : Aggregator.calculateCombinedStrength now l =
      min 1 (Aggregator.specWeightedAverage now l + Aggregator.specDiversityBonus l) := by
    unfold Aggregator.calculateCombinedStrength
    rw [if_neg hne, aggregator_strengthStep_foldl now l 0 0]
    simp only [zero_add]
    rw [if_neg (ne_of_gt hden)]
    rfl
  refine ⟨heq, ?_, ?_⟩
  · rw [heq]
    apply le_min
    · norm_num
    · exact add_nonneg havg0 hbonus0
  · rw [heq]
    exact min_le_left _ _

/-- Concrete two-algorithm record list used as witness input for
`aggregator_strength_c7`. -/
def aggStrengthWitnessList : List Aggregator.SignalRecord :=
  [⟨"TKN", "BUY", "order_flow", 4/5, 1, 0⟩, ⟨"TKN", "BUY", "liquidity", 7/10, 1, 0⟩]

/-- Witness for `aggregator_strength_c7` at a concrete two-signal list. -/
theorem aggregator_strength_c7_witness :
    aggStrengthWitnessList ≠ [] ∧
    0 ≤ Aggregator.calculateCombinedStrength 0 aggStrengthWitnessList ∧
    Aggregator.calculateCombinedStrength 0 aggStrengthWitnessList ≤ 1 := by
  have hne : aggStrengthWitnessList ≠ [] := by simp [aggStrengthWitnessList]
  have hconf : ∀ r ∈ aggStrengthWitnessList, 0 ≤ r.confidence ∧ r.confidence ≤ 1 := by
    intro r hr
    simp only [aggStrengthWitnessList, List.mem_cons, List.mem_singleton] at hr
    rcases hr with rfl | hr
    · norm_num
    · rcases hr with rfl | hr
      · norm_num
      · simp at hr
  have hw : ∀ r ∈ aggStrengthWitnessList,
      r.weight = Aggregator.algorithmWeights r.algorithm := by
    intro r hr
    simp only [aggStrengthWitnessList, List.mem_cons, List.mem_singleton] at hr
    rcases hr with rfl | hr
    · simp [Aggregator.algorithmWeights]
    · rcases hr with rfl | hr
      · simp [Aggregator.algorithmWeights]
      · simp at hr
  exact ⟨hne, (aggregator_strength_c7 0 aggStrengthWitnessList hne hconf hw).2⟩

end ATS

namespace ATS

/-- Pruning the window changes neither the combined-signal history nor the
threshold. -/
theorem aggregator_cleanOldSignals_frame (s : Aggregator.State) (sym : String) (now : ℚ) :
    (Aggregator.cleanOldSignals s sym now).combinedSignals = s.combinedSignals ∧
    (Aggregator.cleanOldSignals s sym now).confirmationThreshold = s.confirmationThreshold := by
  unfold Aggregator.cleanOldSignals
  cases lookupKey s.recentSignals sym with
  | none => exact ⟨rfl, rfl⟩
  | some l =>
    simp only
    split
    · exact ⟨rfl, rfl⟩
    · exact ⟨rfl, rfl⟩

/-- Emitting the combined signal and starting the cooldown leave the
retained raw signals untouched. -/
theorem aggregator_emit_frame (s : Aggregator.State) (sym stype : String)
    (strength now : ℚ) :
    (Aggregator.setCooldown
        (Aggregator.generateCombinedSignal s sym stype strength now) sym now).recentSignals =
      s.recentSignals ∧
    (Aggregator.setCooldown
        (Aggregator.generateCombinedSignal s sym stype strength now) sym now).combinedSignals =
      s.combinedSignals ++
        [⟨sym, stype, strength, now,
          (((lookupKey s.recentSignals sym).getD []).filter
            (fun r => r.signalType = stype)).map (fun r => r.algorithm),
          Aggregator.uniqueAlgorithms
            (((lookupKey s.recentSignals sym).getD []).filter
              (fun r => r.signalType = stype))⟩] := by
  unfold Aggregator.setCooldown Aggregator.generateCombinedSignal
  exact ⟨rfl, rfl⟩

/-- With threshold 2, the confirmation check succeeds exactly when the
symbol's retained signals contain at least two of the direction from at
least two distinct algorithms. -/
theorem aggregator_checkConfirmation_iff (s : Aggregator.State) (sym stype : String)
    (now : ℚ) (hth : s.confirmationThreshold = 2) :
    (Aggregator.checkConfirmation s sym stype now).1 = true ↔
      Aggregator.confirmationCondition
        ((lookupKey s.recentSignals sym).getD []) stype := by
  unfold Aggregator.checkConfirmation Aggregator.confirmationCondition
  cases lookupKey s.recentSignals sym with
  | none =>
    simp
  | some l =>
    simp only [Option.getD_some, hth]
    split
    · rename_i hlen
      simp only [Bool.false_eq_true, false_iff]
      intro hc
      exact absurd hc.1 (not_le.mpr hlen)
    · rename_i hlen
      split
      · rename_i huniq
        simp only [Bool.false_eq_true, false_iff]
        intro hc
        exact absurd hc.2 (not_le.mpr huniq)
      · rename_i huniq
        simp only [true_iff]
        exact ⟨not_lt.mp hlen, not_lt.mp huniq⟩

/-- C1 (amended): with `confirmation_threshold = 2`, `add_algorithm_signal`
emits a combined signal exactly when the symbol is **not** in the
aggregator's 300 s cooldown and, among the retained raw signals after the
call, at least two share the direction and come from at least two distinct
algorithms; a confirming call appends exactly one combined signal and a
non-confirming call appends none. -/
theorem aggregator_addSignal_c1 (s : Aggregator.State) (sym stype alg : String)
    (conf now : ℚ) (hth : s.confirmationThreshold = 2) :
    ((Aggregator.addAlgorithmSignal s sym stype alg conf now).1 = true ↔
      (Aggregator.isInCooldown s sym now = false ∧
       Aggregator.confirmationCondition
         ((lookupKey
             (Aggregator.addAlgorithmSignal s sym stype alg conf now).2.recentSignals
             sym).getD [])
         stype)) ∧
    (Aggregator.addAlgorithmSignal s sym stype alg conf now).2.combinedSignals.length =
      s.combinedSignals.length +
        (if (Aggregator.addAlgorithmSignal s sym stype alg conf now).1 then 1 else 0) := by
  cases hcd : Aggregator.isInCooldown s sym now with
  | true =>
    have hres : Aggregator.addAlgorithmSignal s sym stype alg conf now = (false, s) := by
      unfold Aggregator.addAlgorithmSignal
      rw [hcd]
      simp
    rw [hres]
    constructor
    · simp
    · simp
  | false =>
    unfold Aggregator.addAlgorithmSignal
    rw [hcd]
    simp only [Bool.false_eq_true, if_false]
    set s2 := Aggregator.cleanOldSignals
      (Aggregator.appendSignal s sym
        ⟨sym, stype, alg, conf, Aggregator.algorithmWeights alg, now⟩)
      sym now with hs2
    have hth2 : s2.confirmationThreshold = 2 := by
      rw [hs2]
      rw [(aggregator_cleanOldSignals_frame _ sym now).2]
      exact hth
    have hcomb2 : s2.combinedSignals = s.combinedSignals := by
      rw [hs2, (aggregator_cleanOldSignals_frame _ sym now).1]
      rfl
    cases hcc : (Aggregator.checkConfirmation s2 sym stype now).1 with
    | true =>
      simp only [hcc, if_true]
      constructor
      · simp only [true_iff]
        refine ⟨by simp, ?_⟩
        rw [(aggregator_emit_frame s2 sym stype _ now).1]
        exact (aggregator_checkConfirmation_iff s2 sym stype now hth2).mp hcc
      · rw [(aggregator_emit_frame s2 sym stype _ now).2]
        simp [hcomb2]
    | false =>
      simp only [hcc, Bool.false_eq_true, if_false]
      constructor
      · simp only [Bool.false_eq_true, false_iff]
        intro hcond
        have hmp := (aggregator_checkConfirmation_iff s2 sym stype now hth2).mpr hcond.2
        rw [hcc] at hmp
        exact absurd hmp (by simp)
      · simp [hcomb2]

/-- A concrete aggregator state in the 300 s cooldown with two retained
confirming BUY signals: exactly the configuration right after a confirmed
combination (records at times 0 and 1, cooldown until 301). -/
def aggC1CounterState : Aggregator.State :=
  ⟨2,
   [("TKN",
     [⟨"TKN", "BUY", "order_flow", 4/5, 1, 0⟩,
      ⟨"TKN", "BUY", "liquidity", 7/10, 1, 1⟩])],
   [("TKN", 301)],
   []⟩

/-- C1 counterexample: at time 2 the symbol is in cooldown, so the call
emits nothing (returns `False`), yet among the retained raw signals of the
same direction the count is 2 and the distinct algorithms are 2 — the
claimed "emitted exactly when" biconditional fails without the cooldown
caveat. -/
theorem aggregator_c1_counterexample :
    (Aggregator.addAlgorithmSignal aggC1CounterState "TKN" "BUY" "order_flow" (9/10) 2).1
      = false ∧
    Aggregator.confirmationCondition
      ((lookupKey
          (Aggregator.addAlgorithmSignal aggC1CounterState "TKN" "BUY" "order_flow"
            (9/10) 2).2.recentSignals
          "TKN").getD [])
      "BUY" ∧
    aggC1CounterState.confirmationThreshold = 2 := by
  have hcd : Aggregator.isInCooldown aggC1CounterState "TKN" 2 = true := by
    simp only [Aggregator.isInCooldown, aggC1CounterState, lookupKey, if_pos]
    norm_num
  have hres : Aggregator.addAlgorithmSignal aggC1CounterState "TKN" "BUY" "order_flow"
      (9/10) 2 = (false, aggC1CounterState) := by
    unfold Aggregator.addAlgorithmSignal
    rw [hcd]
    simp
  rw [hres]
  refine ⟨rfl, ?_, rfl⟩
  unfold Aggregator.confirmationCondition Aggregator.uniqueAlgorithms
  constructor
  · simp [aggC1CounterState, lookupKey]
  · simp [aggC1CounterState, lookupKey, List.dedup]

/-- C10: a raw signal arriving while the symbol's 300 s combination
cooldown is active is discarded entirely — `add_algorithm_signal` returns
`False` and the whole aggregator state (recent-signal buffers, cooldowns,
history) is unchanged. -/
theorem aggregator_cooldown_c10 (s : Aggregator.State) (sym stype alg : String)
    (conf now : ℚ) (h : Aggregator.isInCooldown s sym now = true) :
    Aggregator.addAlgorithmSignal s sym stype alg conf now = (false, s) := by
  unfold Aggregator.addAlgorithmSignal
  rw [h]
  simp

/-- A concrete aggregator state in cooldown for `aggregator_cooldown_c10`. -/
def aggC10WitnessState : Aggregator.State := ⟨2, [], [("TKN", 10)], []⟩

/-- Witness for `aggregator_cooldown_c10` at a concrete in-cooldown state. -/
theorem aggregator_cooldown_c10_witness :
    Aggregator.isInCooldown aggC10WitnessState "TKN" 0 = true ∧
    Aggregator.addAlgorithmSignal aggC10WitnessState "TKN" "BUY" "order_flow" (1/2) 0 =
      (false, aggC10WitnessState) := by
  have h : Aggregator.isInCooldown aggC10WitnessState "TKN" 0 = true := by
    simp only [Aggregator.isInCooldown, aggC10WitnessState, lookupKey, if_pos]
    norm_num
  exact ⟨h, aggregator_cooldown_c10 _ _ _ _ _ _ h⟩

/-- Witness for `aggregator_addSignal_c1`: a first signal from a single
algorithm on a fresh aggregator confirms nothing. -/
theorem aggregator_addSignal_c1_witness :
    Aggregator.initialState.confirmationThreshold = 2 ∧
    (Aggregator.addAlgorithmSignal Aggregator.initialState "TKN" "BUY" "order_flow"
        (4/5) 0).2.combinedSignals.length =
      Aggregator.initialState.combinedSignals.length +
        (if (Aggregator.addAlgorithmSignal Aggregator.initialState "TKN" "BUY" "order_flow"
            (4/5) 0).1 then 1 else 0) :=
  ⟨rfl,
    (aggregator_addSignal_c1 Aggregator.initialState "TKN" "BUY" "order_flow" (4/5) 0 rfl).2⟩

end ATS

namespace ATS

/-- Appending one evaluation to a run. -/
theorem regime_run_concat (s : Regime.State) (cs : List Regime.Kind) (c : Regime.Kind) :
    Regime.run s (cs ++ [c]) = Regime.step (Regime.run s cs) c := by
  unfold Regime.run
  rw [List.foldl_append]
  rfl

/-- If one evaluation flips the committed regime, the candidate was
already pending with two recorded confirmations, and the new committed
regime is that candidate. -/
theorem regime_step_change (s : Regime.State) (c : Regime.Kind)
    (h : (Regime.step s c).current ≠ s.current) :
    c ≠ s.current ∧ s.pending = some c ∧ 2 ≤ s.confirmations ∧
      (Regime.step s c).current = c := by
  unfold Regime.step at h ⊢
  by_cases h1 : c = s.current
  · rw [if_neg (by simpa using h1)] at h
    exact absurd rfl h
  · rw [if_pos (by simpa using h1)] at h ⊢
    by_cases h2 : s.pending = some c
    · rw [if_pos h2] at h ⊢
      by_cases h3 : Regime.regimePersistence ≤ s.confirmations + 1
      · rw [if_pos h3] at h ⊢
        refine ⟨h1, h2, ?_, rfl⟩
        unfold Regime.regimePersistence at h3
        omega
      · rw [if_neg h3] at h
        exact absurd rfl h
    · rw [if_neg h2] at h
      have h3 : ¬ Regime.regimePersistence ≤ (1 : ℕ) := by
        unfold Regime.regimePersistence
        omega
      rw [if_neg h3] at h
      exact absurd rfl h

/-- In a run from a clean state, a pending candidate with `k` recorded
confirmations means the last `k` evaluations all produced that candidate. -/
theorem regime_run_pending (r0 : Regime.Kind) (cs : List Regime.Kind) (R : Regime.Kind)
    (h : (Regime.run ⟨r0, none, 0⟩ cs).pending = some R) :
    ∃ pre, cs = pre ++ List.replicate (Regime.run ⟨r0, none, 0⟩ cs).confirmations R := by
  induction cs using List.reverseRecOn with
  | nil => simp [Regime.run] at h
  | append_singleton cs c ih =>
    rw [regime_run_concat] at h ⊢
    set t := Regime.run ⟨r0, none, 0⟩ cs with ht
    unfold Regime.step at h ⊢
    by_cases h1 : c = t.current
    · rw [if_neg (by simpa using h1)] at h
      simp at h
    · rw [if_pos (by simpa using h1)] at h ⊢
      by_cases h2 : t.pending = some c
      · rw [if_pos h2] at h ⊢
        by_cases h3 : Regime.regimePersistence ≤ t.confirmations + 1
        · rw [if_pos h3] at h
          simp at h
        · rw [if_neg h3] at h ⊢
          have hpend2 : t.pending = some R := h
          rw [h2] at hpend2
          have hRc : R = c := (Option.some.inj hpend2).symm
          subst hRc
          obtain ⟨pre, hpre⟩ := ih h2
          refine ⟨pre, ?_⟩
          simp only
          rw [List.replicate_succ']
          rw [← List.append_assoc, ← hpre]
      · rw [if_neg h2] at h ⊢
        have h3 : ¬ Regime.regimePersistence ≤ (1 : ℕ) := by
          unfold Regime.regimePersistence
          omega
        rw [if_neg h3] at h ⊢
        have hpend2 : some c = some R := h
        have hRc : R = c := (Option.some.inj hpend2).symm
        subst hRc
        exact ⟨cs, by simp⟩

/-- C4: starting from a clean hysteresis state, the committed regime flips
to a new value on an evaluation only if that evaluation and the two
before it all produced the same candidate (the trace ends in three
consecutive occurrences of the new regime); an evaluation producing a
fresh candidate restarts the count at 1 without flipping, and one
producing the committed regime resets the pending state entirely. -/
theorem regime_persistence_c4 (r0 : Regime.Kind) (pre : List Regime.Kind)
    (c : Regime.Kind)
    (h : (Regime.run ⟨r0, none, 0⟩ (pre ++ [c])).current ≠
      (Regime.run ⟨r0, none, 0⟩ pre).current) :
    (Regime.run ⟨r0, none, 0⟩ (pre ++ [c])).current = c ∧
    (∃ pre2, pre ++ [c] = pre2 ++ [c, c, c]) ∧
    (∀ (s : Regime.State) (d : Regime.Kind), d = s.current →
      (Regime.step s d).confirmations = 0 ∧ (Regime.step s d).pending = none) ∧
    (∀ (s : Regime.State) (d : Regime.Kind), d ≠ s.current → s.pending ≠ some d →
      (Regime.step s d).current = s.current ∧ (Regime.step s d).confirmations = 1 ∧
        (Regime.step s d).pending = some d) := by
  rw [regime_run_concat] at h ⊢
  set t := Regime.run ⟨r0, none, 0⟩ pre with ht
  obtain ⟨hc, hpend, hconf, hcur⟩ := regime_step_change t c h
  refine ⟨hcur, ?_, ?_, ?_⟩
  · obtain ⟨p, hp⟩ := regime_run_pending r0 pre c (by rw [← ht]; exact hpend)
    rw [← ht] at hp
    obtain ⟨m, hm⟩ : ∃ m, t.confirmations = m + 2 := ⟨t.confirmations - 2, by omega⟩
    refine ⟨p ++ List.replicate m c, ?_⟩
    rw [hp, hm]
    have : List.replicate (m + 2) c = List.replicate m c ++ [c, c] := by
      rw [List.replicate_succ', List.replicate_succ']
      simp
    rw [this]
    simp
  · intro s d hd
    unfold Regime.step
    rw [if_neg (by simp [hd])]
    exact ⟨rfl, rfl⟩
  · intro s d hd hp
    unfold Regime.step
    rw [if_pos (by simpa using hd)]
    rw [if_neg hp]
    have h3 : ¬ Regime.regimePersistence ≤ (1 : ℕ) := by
      unfold Regime.regimePersistence
      omega
    rw [if_neg h3]
    exact ⟨rfl, rfl, rfl⟩

/-- Witness for `regime_persistence_c4`: from NORMAL, three consecutive
VOLATILE candidates flip the committed regime on exactly the third. -/
theorem regime_persistence_c4_witness :
    (Regime.run ⟨Regime.Kind.NORMAL, none, 0⟩
        [Regime.Kind.VOLATILE, Regime.Kind.VOLATILE, Regime.Kind.VOLATILE]).current ≠
      (Regime.run ⟨Regime.Kind.NORMAL, none, 0⟩
        [Regime.Kind.VOLATILE, Regime.Kind.VOLATILE]).current ∧
    (Regime.run ⟨Regime.Kind.NORMAL, none, 0⟩
        [Regime.Kind.VOLATILE, Regime.Kind.VOLATILE, Regime.Kind.VOLATILE]).current =
      Regime.Kind.VOLATILE := by
  have h : (Regime.run ⟨Regime.Kind.NORMAL, none, 0⟩
      ([Regime.Kind.VOLATILE, Regime.Kind.VOLATILE] ++ [Regime.Kind.VOLATILE])).current ≠
      (Regime.run ⟨Regime.Kind.NORMAL, none, 0⟩
        [Regime.Kind.VOLATILE, Regime.Kind.VOLATILE]).current := by
    decide
  exact ⟨h,
    (regime_persistence_c4 Regime.Kind.NORMAL
      [Regime.Kind.VOLATILE, Regime.Kind.VOLATILE] Regime.Kind.VOLATILE h).1⟩

end ATS

namespace ATS

/-- Deleting a key removes it from lookup. -/
theorem lookupKey_eraseKey {α : Type*} (l : List (String × α)) (key : String) :
    lookupKey (eraseKey l key) key = none := by
  induction l with
  | nil => rfl
  | cons p rest ih =>
    obtain ⟨k, v⟩ := p
    rw [eraseKey, List.filter_cons]
    by_cases hp : k = key
    · have hcond : (decide ((k, v).1 ≠ key)) = false := by simp [hp]
      rw [hcond]
      simp only [Bool.false_eq_true, if_false]
      exact ih
    · have hcond : (decide ((k, v).1 ≠ key)) = true := by simp [hp]
      rw [hcond]
      simp only [if_true]
      simp only [lookupKey]
      rw [if_neg hp]
      exact ih

/-- The last `n` elements of a non-empty list form a non-empty list
(for positive `n`). -/
theorem takeLast_ne_nil {α : Type*} (n : ℕ) (l : List α) (hn : 0 < n) (hl : l ≠ []) :
    takeLast n l ≠ [] := by
  intro h
  have hlen : (takeLast n l).length = l.length - (l.length - n) := List.length_drop _ _
  rw [h] at hlen
  simp only [List.length_nil] at hlen
  have hpos : 0 < l.length := List.length_pos.mpr hl
  omega

/-- The last `n` elements of a length-`n` list are the whole list. -/
theorem takeLast_of_length_eq {α : Type*} (n : ℕ) (l : List α) (h : l.length = n) :
    takeLast n l = l := by
  unfold takeLast
  rw [h]
  simp

/-- C8 (amended): a cooldown entry is honoured only while its expiry is
strictly in the future — `is_in_cooldown` returns `True` iff `now` is
before the stored expiry, leaving the state unchanged; once the expiry
has passed, both `is_in_cooldown` and `get_remaining_cooldown` delete the
entry and report the symbol as not in cooldown. -/
theorem cooldown_lazy_c8 (s : Cooldown.State) (sym : String) (now e : ℚ)
    (h : lookupKey s.cooldownPeriods sym = some e) :
    ((Cooldown.isInCooldown s sym now).1 = true ↔ now < e) ∧
    (now < e → Cooldown.isInCooldown s sym now = (true, s)) ∧
    (e ≤ now →
      (Cooldown.isInCooldown s sym now).1 = false ∧
      lookupKey (Cooldown.isInCooldown s sym now).2.cooldownPeriods sym = none ∧
      (Cooldown.getRemainingCooldown s sym now).1 = none ∧
      lookupKey (Cooldown.getRemainingCooldown s sym now).2.cooldownPeriods sym = none) := by
  unfold Cooldown.isInCooldown Cooldown.getRemainingCooldown
  rw [h]
  dsimp only
  by_cases hle : e ≤ now
  · simp only [if_pos hle]
    refine ⟨?_, ?_, ?_⟩
    · simp only [Bool.false_eq_true, false_iff]
      exact not_lt.mpr hle
    · intro hlt
      exact absurd hlt (not_lt.mpr hle)
    · intro _
      exact ⟨trivial, lookupKey_eraseKey _ _, trivial, lookupKey_eraseKey _ _⟩
  · simp only [if_neg hle]
    refine ⟨?_, ?_, ?_⟩
    · simp only [true_iff]
      exact not_le.mp hle
    · intro _; trivial
    · intro hc; exact absurd hc hle

/-- A concrete one-entry cooldown state for `cooldown_lazy_c8`. -/
def cooldownC8WitnessState : Cooldown.State := ⟨[("AAA", 100)], [], []⟩

/-- Witness for `cooldown_lazy_c8`: the entry expiring at 100 is reported
active at time 0. -/
theorem cooldown_lazy_c8_witness :
    lookupKey cooldownC8WitnessState.cooldownPeriods "AAA" = some 100 ∧
    Cooldown.isInCooldown cooldownC8WitnessState "AAA" 0 = (true, cooldownC8WitnessState) := by
  have h : lookupKey cooldownC8WitnessState.cooldownPeriods "AAA" = some 100 := by
    simp [cooldownC8WitnessState, lookupKey]
  exact ⟨h, (cooldown_lazy_c8 cooldownC8WitnessState "AAA" 0 100 h).2.1 (by norm_num)⟩

/-- The state reached by `set_cooldown("AAA")` at time 0 followed by
`set_cooldown("BBB")` at time 1000 (both dynamic, no history ⇒ 15 min):
the AAA entry expires at 900. -/
def cooldownC8CounterState : Cooldown.State :=
  Cooldown.setCooldown (Cooldown.setCooldown Cooldown.initialState "AAA" none 0)
    "BBB" none 1000

/-- C8 counterexample: in the reachable state after the second
`set_cooldown` call (at time 1000), the AAA entry is still present though
its expiry 900 is already in the past — the "expiresAt is always strictly
in the future when present" invariant fails between expiry and the next
lazy check. -/
theorem cooldown_c8_counterexample :
    lookupKey cooldownC8CounterState.cooldownPeriods "AAA" = some 900 ∧
    ¬ ((1000 : ℚ) < 900) := by
  constructor
  · simp only [cooldownC8CounterState, Cooldown.setCooldown,
      Cooldown.calculateDynamicCooldown, Cooldown.initialState,
      Cooldown.defaultCooldownMinutes, lookupKey, updateKey]
    norm_num [lookupKey, updateKey]
  · norm_num

end ATS

namespace ATS

/-- Updating a key makes lookup return the new value. -/
theorem lookupKey_updateKey {α : Type*} (l : List (String × α)) (key : String) (v : α) :
    lookupKey (updateKey l key v) key = some v := by
  induction l with
  | nil => simp [updateKey, lookupKey]
  | cons p rest ih =>
    obtain ⟨k, w⟩ := p
    unfold updateKey
    by_cases hk : k = key
    · rw [if_pos hk]
      simp [lookupKey, hk]
    · rw [if_neg hk]
      simp only [lookupKey]
      rw [if_neg hk]
      exact ih

/-- C5: with the default base (15 min), a symbol whose last 10 recorded
outcomes contain 8 successes gets the dynamic cooldown
`int(15 × 0.7) = 10` min, one with 1 success of 10 gets
`int(15 × 2.0) = 30` min — strictly longer — and `set_cooldown` with
minutes omitted stores `now + 60 × duration`; for any symbol with a
non-empty history the dynamic duration is clamped to `[5, 60]` minutes. -/
theorem cooldown_dynamic_c5 (s1 s2 : Cooldown.State) (sym1 sym2 : String) (now : ℚ)
    (h1 h2 : List Cooldown.SignalResult)
    (hb1 : lookupKey s1.symbolSpecificCooldowns sym1 = none)
    (hb2 : lookupKey s2.symbolSpecificCooldowns sym2 = none)
    (hh1 : lookupKey s1.signalHistory sym1 = some h1)
    (hl1 : h1.length = 10) (hc1 : h1.countP (fun r => r.success) = 8)
    (hh2 : lookupKey s2.signalHistory sym2 = some h2)
    (hl2 : h2.length = 10) (hc2 : h2.countP (fun r => r.success) = 1) :
    Cooldown.calculateDynamicCooldown s1 sym1 = 10 ∧
    Cooldown.calculateDynamicCooldown s2 sym2 = 30 ∧
    Cooldown.calculateDynamicCooldown s1 sym1 <
      Cooldown.calculateDynamicCooldown s2 sym2 ∧
    lookupKey (Cooldown.setCooldown s1 sym1 none now).cooldownPeriods sym1 =
      some (now + 60 * 10) ∧
    (∀ (s : Cooldown.State) (sym : String) (l : List Cooldown.SignalResult),
      lookupKey s.signalHistory sym = some l → l ≠ [] →
      Cooldown.calculateDynamicCooldown s sym =
        max 5 (min 60 (Int.toNat
          ⌊((lookupKey s.symbolSpecificCooldowns sym).getD 15 : ℚ) *
            Cooldown.adjustmentFactor
              (Cooldown.successRate (takeLast 10 l))⌋))) ∧
    (∀ r : ℚ,
      (4/5 ≤ r → Cooldown.adjustmentFactor r = 7/10) ∧
      (3/5 ≤ r → r < 4/5 → Cooldown.adjustmentFactor r = 17/20) ∧
      (2/5 ≤ r → r < 3/5 → Cooldown.adjustmentFactor r = 1) ∧
      (1/5 ≤ r → r < 2/5 → Cooldown.adjustmentFactor r = 3/2) ∧
      (r < 1/5 → Cooldown.adjustmentFactor r = 2)) ∧
    (∀ (s : Cooldown.State) (sym : String) (l : List Cooldown.SignalResult),
      lookupKey s.signalHistory sym = some l → l ≠ [] →
      5 ≤ Cooldown.calculateDynamicCooldown s sym ∧
      Cooldown.calculateDynamicCooldown s sym ≤ 60) := by
  have hne1 : h1 ≠ [] := by
    intro h
    rw [h] at hl1
    simp at hl1
  have hne2 : h2 ≠ [] := by
    intro h
    rw [h] at hl2
    simp at hl2
  have hd1 : Cooldown.calculateDynamicCooldown s1 sym1 = 10 := by
    unfold Cooldown.calculateDynamicCooldown
    rw [hh1, hb1]
    simp only [Option.getD_none]
    rw [if_neg hne1]
    rw [takeLast_of_length_eq _ _ (by rw [hl1]; rfl)]
    rw [if_neg hne1]
    have hrate : Cooldown.successRate h1 = 4/5 := by
      unfold Cooldown.successRate
      rw [hc1, hl1]
      norm_num
    rw [hrate]
    have hfac : Cooldown.adjustmentFactor (4/5) = 7/10 := by
      unfold Cooldown.adjustmentFactor
      norm_num
    rw [hfac]
    have hfloor : ⌊(Cooldown.defaultCooldownMinutes : ℚ) * (7/10)⌋ = 10 := by
      unfold Cooldown.defaultCooldownMinutes
      norm_num
    rw [hfloor]
    rfl
  have hd2 : Cooldown.calculateDynamicCooldown s2 sym2 = 30 := by
    unfold Cooldown.calculateDynamicCooldown
    rw [hh2, hb2]
    simp only [Option.getD_none]
    rw [if_neg hne2]
    rw [takeLast_of_length_eq _ _ (by rw [hl2]; rfl)]
    rw [if_neg hne2]
    have hrate : Cooldown.successRate h2 = 1/10 := by
      unfold Cooldown.successRate
      rw [hc2, hl2]
      norm_num
    rw [hrate]
    have hfac : Cooldown.adjustmentFactor (1/10) = 2 := by
      unfold Cooldown.adjustmentFactor
      norm_num
    rw [hfac]
    have hfloor : ⌊(Cooldown.defaultCooldownMinutes : ℚ) * 2⌋ = 30 := by
      unfold Cooldown.defaultCooldownMinutes
      norm_num
    rw [hfloor]
    rfl
  refine ⟨hd1, hd2, by rw [hd1, hd2]; norm_num, ?_, ?_, ?_, ?_⟩
  · unfold Cooldown.setCooldown
    dsimp only
    rw [hd1]
    rw [lookupKey_updateKey]
    norm_num
  · intro s sym l hl hlne
    unfold Cooldown.calculateDynamicCooldown
    rw [hl]
    dsimp only
    rw [if_neg hlne]
    have hrec : takeLast Cooldown.successRateWindow l ≠ [] := by
      apply takeLast_ne_nil
      · unfold Cooldown.successRateWindow
        norm_num
      · exact hlne
    rw [if_neg hrec]
    rfl
  · intro r
    unfold Cooldown.adjustmentFactor
    refine ⟨?_, ?_, ?_, ?_, ?_⟩
    · intro h
      rw [if_pos h]
    · intro h hlt
      rw [if_neg (by linarith), if_pos h]
    · intro h hlt
      rw [if_neg (by linarith), if_neg (by linarith), if_pos h]
    · intro h hlt
      rw [if_neg (by linarith), if_neg (by linarith), if_neg (by linarith), if_pos h]
    · intro hlt
      rw [if_neg (by linarith), if_neg (by linarith), if_neg (by linarith),
        if_neg (by linarith)]
  · intro s sym l hl hlne
    unfold Cooldown.calculateDynamicCooldown
    rw [hl]
    dsimp only
    rw [if_neg hlne]
    have hrec : takeLast Cooldown.successRateWindow l ≠ [] := by
      apply takeLast_ne_nil
      · unfold Cooldown.successRateWindow
        norm_num
      · exact hlne
    rw [if_neg hrec]
    constructor
    · exact le_max_left _ _
    · apply max_le
      · unfold Cooldown.minCooldownMinutes
        norm_num
      · refine le_trans (min_le_left _ _) ?_
        unfold Cooldown.maxCooldownMinutes
        norm_num

end ATS

namespace ATS

/-- A 10-outcome history with 8 successes. -/
def cooldownC5Hist8 : List Cooldown.SignalResult :=
  List.replicate 8 ⟨0, true, 0⟩ ++ List.replicate 2 ⟨0, false, 0⟩

/-- A 10-outcome history with 1 success. -/
def cooldownC5Hist1 : List Cooldown.SignalResult :=
  List.replicate 1 ⟨0, true, 0⟩ ++ List.replicate 9 ⟨0, false, 0⟩

/-- A manager state whose symbol AAA has the 8-of-10 history. -/
def cooldownC5State1 : Cooldown.State := ⟨[], [], [("AAA", cooldownC5Hist8)]⟩

/-- A manager state whose symbol BBB has the 1-of-10 history. -/
def cooldownC5State2 : Cooldown.State := ⟨[], [], [("BBB", cooldownC5Hist1)]⟩

/-- Witness for `cooldown_dynamic_c5` at the two concrete histories. -/
theorem cooldown_dynamic_c5_witness :
    cooldownC5Hist8.length = 10 ∧
    cooldownC5Hist8.countP (fun r => r.success) = 8 ∧
    cooldownC5Hist1.length = 10 ∧
    cooldownC5Hist1.countP (fun r => r.success) = 1 ∧
    Cooldown.calculateDynamicCooldown cooldownC5State1 "AAA" = 10 ∧
    Cooldown.calculateDynamicCooldown cooldownC5State2 "BBB" = 30 := by
  have hl1 : cooldownC5Hist8.length = 10 := by
    simp [cooldownC5Hist8]
  have hc1 : cooldownC5Hist8.countP (fun r => r.success) = 8 := by
    simp [cooldownC5Hist8, List.countP_append]
  have hl2 : cooldownC5Hist1.length = 10 := by
    simp [cooldownC5Hist1]
  have hc2 : cooldownC5Hist1.countP (fun r => r.success) = 1 := by
    simp [cooldownC5Hist1, List.countP_append]
  have hh1 : lookupKey cooldownC5State1.signalHistory "AAA" = some cooldownC5Hist8 := by
    simp [cooldownC5State1, lookupKey]
  have hh2 : lookupKey cooldownC5State2.signalHistory "BBB" = some cooldownC5Hist1 := by
    simp [cooldownC5State2, lookupKey]
  have main := cooldown_dynamic_c5 cooldownC5State1 cooldownC5State2 "AAA" "BBB" 0
    cooldownC5Hist8 cooldownC5Hist1 rfl rfl hh1 hl1 hc1 hh2 hl2 hc2
  exact ⟨hl1, hc1, hl2, hc2, main.1, main.2.1⟩

end ATS

namespace ATS

/-- C6 (amended): the liquidity detector fires iff the symbol is out of
cooldown, the latest reading is at least 10 000 and `|rate| ≥ 0.1` or
`|acceleration| ≥ 0.05`; the emitted direction is LIQUIDITY_INCREASE
exactly when `rate > 0` **or** `acceleration > 0` (and LIQUIDITY_DECREASE
otherwise) — i.e. it is not determined by the sign of the statistic that
crossed its threshold. -/
theorem liquidity_trigger_c6 (s : Liquidity.State) (sym : String) (now : ℚ) :
    ((Liquidity.isSignalTriggered s sym now).1.1 = true ↔
      (Liquidity.isInCooldown s sym now = false ∧
       Liquidity.meetsLiquidityThreshold s sym = true ∧
       (Liquidity.changeRateThreshold ≤ |Liquidity.calculateLiquidityChangeRate s sym| ∨
        Liquidity.accelerationThreshold ≤
          |Liquidity.calculateLiquidityAcceleration s sym|))) ∧
    ((Liquidity.isSignalTriggered s sym now).1.1 = true →
      (Liquidity.isSignalTriggered s sym now).1.2 =
        some (if 0 < Liquidity.calculateLiquidityChangeRate s sym ∨
            0 < Liquidity.calculateLiquidityAcceleration s sym
          then "LIQUIDITY_INCREASE" else "LIQUIDITY_DECREASE")) := by
  unfold Liquidity.isSignalTriggered
  cases hcd : Liquidity.isInCooldown s sym now with
  | true =>
    simp
  | false =>
    simp only [Bool.false_eq_true, if_false]
    cases hmt : Liquidity.meetsLiquidityThreshold s sym with
    | false =>
      simp
    | true =>
      simp only [Bool.true_eq_false, if_false]
      by_cases hsig : Liquidity.changeRateThreshold ≤
          |Liquidity.calculateLiquidityChangeRate s sym| ∨
          Liquidity.accelerationThreshold ≤
            |Liquidity.calculateLiquidityAcceleration s sym|
      · rw [if_pos hsig]
        constructor
        · simp [hsig]
        · intro _
          rfl
      · rw [if_neg hsig]
        constructor
        · simp [hsig]
        · intro hfalse
          simp at hfalse

end ATS

namespace ATS

/-- The liquidity window `[(100000, t=0), (106000, t=1), (106000, t=2)]`:
rising then flat, so the smoothed rate is a small positive number while
the smoothed acceleration is −0.06. -/
def liquidityC6Window : List Liquidity.LiquidityPoint :=
  [⟨100000, 0⟩, ⟨106000, 1⟩, ⟨106000, 2⟩]

/-- Detector state holding `liquidityC6Window` for symbol TKN, no
cooldown. -/
def liquidityC6State : Liquidity.State :=
  ⟨[("TKN", liquidityC6Window)], []⟩

/-- C6 counterexample: on the concrete window the smoothed rate is
`3/125 = 0.024` (positive but below the 0.1 threshold) and the smoothed
acceleration is `−3/50 = −0.06` (beyond the 0.05 threshold) — the firing
statistic is the **negative** acceleration — yet the detector emits
LIQUIDITY_INCREASE, because the direction test is
`change_rate > 0 or acceleration > 0`, not the sign of the triggering
statistic. -/
theorem liquidity_c6_counterexample :
    Liquidity.calculateLiquidityChangeRate liquidityC6State "TKN" = 3/125 ∧
    Liquidity.calculateLiquidityAcceleration liquidityC6State "TKN" = -(3/50) ∧
    |(3/125 : ℚ)| < Liquidity.changeRateThreshold ∧
    Liquidity.accelerationThreshold ≤ |(-(3/50) : ℚ)| ∧
    (-(3/50) : ℚ) < 0 ∧
    (Liquidity.isSignalTriggered liquidityC6State "TKN" 0).1 =
      (true, some "LIQUIDITY_INCREASE") := by
  have habs1 : |(3/125 : ℚ)| = 3/125 := abs_of_pos (by norm_num)
  have habs2 : |(-(3/50) : ℚ)| = 3/50 := by
    rw [abs_neg]
    exact abs_of_pos (by norm_num)
  have hsort : Liquidity.sortByTime liquidityC6Window = liquidityC6Window := by
    apply List.Sorted.insertionSort_eq
    unfold liquidityC6Window
    refine List.sorted_cons.mpr ⟨?_, List.sorted_cons.mpr ⟨?_, List.sorted_singleton _⟩⟩
    · intro b hb
      simp only [List.mem_cons, List.not_mem_nil, or_false, List.mem_singleton] at hb
      rcases hb with rfl | rfl <;> norm_num
    · intro b hb
      simp only [List.mem_singleton, List.mem_cons, List.not_mem_nil, or_false] at hb
      subst hb
      norm_num
  have hlk : lookupKey liquidityC6State.liquidityWindows "TKN" = some liquidityC6Window := by
    simp [liquidityC6State, lookupKey]
  have hrs : Liquidity.rateSeries liquidityC6Window = [none, some (3/50), some 0] := by
    unfold Liquidity.rateSeries liquidityC6Window
    simp only [adjacentPairs, List.map_cons, List.map_nil]
    norm_num
  have hts : Liquidity.timeDiffSeries liquidityC6Window = [none, some 1, some 1] := by
    unfold Liquidity.timeDiffSeries liquidityC6Window
    simp only [adjacentPairs, List.map_cons, List.map_nil]
    norm_num
  have has : Liquidity.accelSeries liquidityC6Window = [none, none, some (-(3/50))] := by
    unfold Liquidity.accelSeries
    rw [hts, hrs]
    unfold Liquidity.diffSeries
    simp only [adjacentPairs, List.map_cons, List.map_nil, List.zipWith]
    norm_num
  have hrate : Liquidity.calculateLiquidityChangeRate liquidityC6State "TKN" = 3/125 := by
    unfold Liquidity.calculateLiquidityChangeRate
    rw [hlk]
    dsimp only
    rw [if_neg (by simp [liquidityC6Window])]
    rw [hsort, hrs]
    unfold Liquidity.ewmLastAdjusted
    simp only [List.reverse_cons, List.reverse_nil, List.nil_append, List.cons_append,
      List.append_nil]
    simp only [Liquidity.ewmAccum]
    norm_num
  have haccel : Liquidity.calculateLiquidityAcceleration liquidityC6State "TKN" = -(3/50) := by
    unfold Liquidity.calculateLiquidityAcceleration
    rw [hlk]
    dsimp only
    rw [if_neg (by simp [liquidityC6Window])]
    rw [hsort, has]
    unfold Liquidity.ewmLastAdjusted
    simp only [List.reverse_cons, List.reverse_nil, List.nil_append, List.cons_append,
      List.append_nil]
    simp only [Liquidity.ewmAccum]
    norm_num
  refine ⟨hrate, haccel,
    by rw [habs1]; norm_num [Liquidity.changeRateThreshold], ?_, by norm_num, ?_⟩
  · rw [habs2]
    norm_num [Liquidity.accelerationThreshold]
  · unfold Liquidity.isSignalTriggered
    have hcd : Liquidity.isInCooldown liquidityC6State "TKN" 0 = false := by
      simp [Liquidity.isInCooldown, liquidityC6State, lookupKey]
    have hmt : Liquidity.meetsLiquidityThreshold liquidityC6State "TKN" = true := by
      unfold Liquidity.meetsLiquidityThreshold
      rw [hlk]
      simp only [liquidityC6Window, List.getLast?]
      norm_num [Liquidity.minLiquidityThreshold]
    rw [hcd, hmt]
    simp only [Bool.false_eq_true, if_false, Bool.true_eq_false]
    rw [hrate, haccel]
    rw [if_pos (by right; rw [habs2]; norm_num [Liquidity.accelerationThreshold])]
    rw [if_pos (by left; norm_num)]

end ATS

namespace ATS

/-- C9: a symbol for which no samples (and hence no cooldowns) exist is
the no-signal case for all three detectors: each `is_signal_triggered`
returns `(False, None)` and leaves the state untouched. -/
theorem detectors_empty_c9 (ofs : OrderFlow.State) (ls : Liquidity.State)
    (vps : VolumePrice.State) (sym : String) (now : ℚ)
    (h1 : lookupKey ofs.tradeWindows sym = none)
    (h2 : lookupKey ofs.signalCooldowns sym = none)
    (h3 : lookupKey ls.liquidityWindows sym = none)
    (h4 : lookupKey ls.signalCooldowns sym = none)
    (h5 : lookupKey vps.priceWindows sym = none)
    (h6 : lookupKey vps.volumeWindows sym = none)
    (h7 : lookupKey vps.signalCooldowns sym = none) :
    OrderFlow.isSignalTriggered ofs sym now = ((false, none), ofs) ∧
    Liquidity.isSignalTriggered ls sym now = ((false, none), ls) ∧
    VolumePrice.isSignalTriggered vps sym now = ((false, none), vps) := by
  refine ⟨?_, ?_, ?_⟩
  · unfold OrderFlow.isSignalTriggered
    have hcd : OrderFlow.isInCooldown ofs sym now = false := by
      unfold OrderFlow.isInCooldown
      rw [h2]
    have hvol : OrderFlow.getWindowVolume ofs sym = 0 := by
      unfold OrderFlow.getWindowVolume
      rw [h1]
      rfl
    rw [hcd]
    simp only [Bool.false_eq_true, if_false]
    rw [hvol]
    rw [if_pos (by norm_num [OrderFlow.minVolumeThreshold])]
  · unfold Liquidity.isSignalTriggered
    have hcd : Liquidity.isInCooldown ls sym now = false := by
      unfold Liquidity.isInCooldown
      rw [h4]
    have hmt : Liquidity.meetsLiquidityThreshold ls sym = false := by
      unfold Liquidity.meetsLiquidityThreshold
      rw [h3]
    rw [hcd, hmt]
    simp
  · unfold VolumePrice.isSignalTriggered
    have hcd : VolumePrice.isInCooldown vps sym now = false := by
      unfold VolumePrice.isInCooldown
      rw [h7]
    have hvi : VolumePrice.calculateVolumeIncrease vps sym = 1 := by
      unfold VolumePrice.calculateVolumeIncrease
      rw [h6]
    rw [hcd]
    simp only [Bool.false_eq_true, if_false]
    rw [hvi]
    have hc2 : ¬ (VolumePrice.volumeMultiplierThreshold ≤ (1 : ℚ)) := by
      norm_num [VolumePrice.volumeMultiplierThreshold]
    rw [if_neg hc2, if_neg hc2, if_neg hc2]
    simp

/-- A fresh `OrderFlowAnalyzer()` state. -/
def emptyOrderFlowState : OrderFlow.State := ⟨[], []⟩

/-- A fresh `LiquidityAnalyzer()` state. -/
def emptyLiquidityState : Liquidity.State := ⟨[], []⟩

/-- A fresh `VolumePriceAnalyzer()` state. -/
def emptyVolumePriceState : VolumePrice.State := ⟨[], [], []⟩

/-- Witness for `detectors_empty_c9` on fresh detector states. -/
theorem detectors_empty_c9_witness :
    lookupKey emptyOrderFlowState.tradeWindows "TKN" = none ∧
    OrderFlow.isSignalTriggered emptyOrderFlowState "TKN" 0 =
      ((false, none), emptyOrderFlowState) ∧
    Liquidity.isSignalTriggered emptyLiquidityState "TKN" 0 =
      ((false, none), emptyLiquidityState) ∧
    VolumePrice.isSignalTriggered emptyVolumePriceState "TKN" 0 =
      ((false, none), emptyVolumePriceState) := by
  have main := detectors_empty_c9 emptyOrderFlowState emptyLiquidityState
    emptyVolumePriceState "TKN" 0 rfl rfl rfl rfl rfl rfl rfl
  exact ⟨rfl, main.1, main.2.1, main.2.2⟩

end ATS
